import Mathlib

/-!
# Verification of the Discord storage adapter

A shallow embedding of the `gluesql-discord` storage adapter: the codec that
wraps values in fenced JSON code blocks (`common/src/utils.rs`,
`src/storage/schema.rs`) and the storage operations over a model of the
remote Discord state (`src/storage/mod.rs`, with the client primitives of
`src/lib.rs`).  Character data is modelled as `List Char`; the external JSON
serialization library (serde_json) is modelled as a parameter (`JsonLib`)
whose whitespace-tolerant parse/print agreement is taken as a pointwise
hypothesis where a theorem needs it.
-/

namespace GlueDiscord

/-- The backtick character, written by code point. -/
def btick : Char := Char.ofNat 96

/-- Unicode whitespace test used by Rust's `str::trim` (the characters that
matter here are covered by `Char.isWhitespace`). -/
def isWs (c : Char) : Bool := c.isWhitespace

/-- `str::trim_start`: drop leading whitespace. -/
def trimL (s : List Char) : List Char := s.dropWhile isWs

/-- `str::trim_end`: drop trailing whitespace. -/
def trimR (s : List Char) : List Char := (s.reverse.dropWhile isWs).reverse

/-- Rust's `str::trim`. -/
def rustTrim (s : List Char) : List Char := trimR (trimL s)

/-- Rust's `str::strip_prefix`: `stripPre p s` removes the leading pattern
`p` from `s`, or returns `none` when `s` does not start with `p`. -/
def stripPre : List Char → List Char → Option (List Char)
  | [], s => some s
  | _ :: _, [] => none
  | p :: ps, c :: cs => if p = c then stripPre ps cs else none

/-- Rust's `str::strip_suffix`, via `stripPre` on the reversed lists. -/
def stripSuf (p s : List Char) : Option (List Char) :=
  (stripPre p.reverse s.reverse).map List.reverse

/-- The characters of the opening fence tag. -/
def jsonTag : List Char := [btick, btick, btick, 'j', 's', 'o', 'n']

/-- The characters of the closing fence. -/
def ticks3 : List Char := [btick, btick, btick]

/-- Model of the external JSON serialization library (serde_json) at one
value type: a pretty printer and a parser.  The source consumes it as an
already-correct external service; theorems that need the parse/print
agreement take it as a pointwise hypothesis. -/
structure JsonLib (α : Type) where
  to_string_pretty : α → List Char
  from_str : List Char → Option α

/-- `utils::to_discord_json`: pretty-print the value and wrap it in a fenced
code block; the exact character sequence produced by
`format!("\n```json\n{text}\n```")`. -/
def to_discord_json {α : Type} (lib : JsonLib α) (v : α) : List Char :=
  '\n' :: (jsonTag ++ ('\n' :: (lib.to_string_pretty v ++ ('\n' :: ticks3))))

/-- The fence-stripping front end shared by `utils::from_discord_json` and
`DiscordSchema::from_str`: trim, strip the opening tag, strip the closing
ticks; each `unwrap_or` falls back to the trimmed text, exactly as in the
source. -/
def stripFence (text : List Char) : List Char :=
  let t1 := rustTrim text
  let t2 := match stripPre jsonTag t1 with
    | some r => r
    | none => t1
  match stripSuf ticks3 t2 with
  | some r => r
  | none => t1

/-- `utils::from_discord_json`: strip the fence, then parse. -/
def from_discord_json {α : Type} (lib : JsonLib α) (text : List Char) :
    Option α :=
  lib.from_str (stripFence text)

/-- `DiscordSchema::to_codeblock` (`src/storage/schema.rs`): identical
fencing of the pretty-printed schema (the `DiscordSchema` newtype is
serde-transparent over the inner schema). -/
def DiscordSchema.to_codeblock {σ : Type} (lib : JsonLib σ) (s : σ) :
    List Char :=
  '\n' :: (jsonTag ++ ('\n' :: (lib.to_string_pretty s ++ ('\n' :: ticks3))))

/-- `DiscordSchema::from_str` (`src/storage/schema.rs`): the same
trim/strip/parse sequence as `from_discord_json`, duplicated in the source. -/
def DiscordSchema.from_str {σ : Type} (lib : JsonLib σ) (text : List Char) :
    Option σ :=
  lib.from_str (stripFence text)

theorem isWs_btick : isWs btick = false := by decide

theorem btick_isWhitespace : btick.isWhitespace = false := by decide

theorem stripPre_append (p r : List Char) : stripPre p (p ++ r) = some r := by
  induction p with
  | nil => rfl
  | cons c cs ih => simp [stripPre, ih]

theorem stripSuf_append (p r : List Char) : stripSuf p (r ++ p) = some r := by
  rw [stripSuf, List.reverse_append, stripPre_append]
  simp

theorem trimR_append_ticks (xs : List Char) :
    trimR (xs ++ ticks3) = xs ++ ticks3 := by
  simp [trimR, ticks3, List.dropWhile, isWs_btick]

/-- Strip applied to the exact output of the fence wrapper: the parser
receives the pretty-printed text surrounded by one newline on each side. -/
theorem stripFence_wrap (s : List Char) :
    stripFence ('\n' :: (jsonTag ++ ('\n' :: (s ++ ('\n' :: ticks3))))) =
      '\n' :: (s ++ ['\n']) := by
  have htrim : rustTrim ('\n' :: (jsonTag ++ ('\n' :: (s ++ ('\n' :: ticks3))))) =
      jsonTag ++ ('\n' :: (s ++ ('\n' :: ticks3))) := by
    have h1 : trimL ('\n' :: (jsonTag ++ ('\n' :: (s ++ ('\n' :: ticks3))))) =
        jsonTag ++ ('\n' :: (s ++ ('\n' :: ticks3))) := by
      simp [trimL, jsonTag, List.dropWhile, isWs, isWs_btick, btick_isWhitespace]
    have h2 : jsonTag ++ ('\n' :: (s ++ ('\n' :: ticks3))) =
        (jsonTag ++ ('\n' :: s ++ ['\n'])) ++ ticks3 := by
      simp
    rw [rustTrim, h1, h2, trimR_append_ticks]
  rw [stripFence, htrim]
  have hpre : stripPre jsonTag (jsonTag ++ ('\n' :: (s ++ ('\n' :: ticks3)))) =
      some ('\n' :: (s ++ ('\n' :: ticks3))) := stripPre_append _ _
  simp only [hpre]
  have hsplit : '\n' :: (s ++ ('\n' :: ticks3)) =
      ('\n' :: (s ++ ['\n'])) ++ ticks3 := by simp
  rw [hsplit, stripSuf_append]

/-- Decoding the encoder's output reduces to parsing the pretty-printed text
surrounded by a newline on each side. -/
theorem from_to_discord_json {α : Type} (lib : JsonLib α) (v : α) :
    from_discord_json lib (to_discord_json lib v) =
      lib.from_str ('\n' :: (lib.to_string_pretty v ++ ['\n'])) := by
  rw [from_discord_json, to_discord_json, stripFence_wrap]

/-- The pointwise agreement between the external pretty printer and parser
that the round trip needs: the parser tolerates the one newline the fence
leaves on each side of the printed text. -/
def WsAgrees {α : Type} (lib : JsonLib α) (v : α) : Prop :=
  lib.from_str ('\n' :: (lib.to_string_pretty v ++ ['\n'])) = some v

/-! ## The engine-side schema type

The slice of `gluesql_core`'s `Schema` that the adapter inspects: the table
name and, per column, the option list in which `insert_schema` looks for
`ColumnOption::Unique { is_primary: true }`.  Data types and indexes are
never read by the adapter and are left out. -/

/-- `gluesql_core::ast::ColumnOption`, reduced to the distinction the
adapter makes. -/
inductive ColumnOption : Type
  | unique (is_primary : Bool)
  | otherOption
deriving DecidableEq

/-- `gluesql_core::ast::ColumnOptionDef`. -/
structure ColumnOptionDef : Type where
  option : ColumnOption
deriving DecidableEq

/-- `gluesql_core::ast::ColumnDef`, reduced to what the adapter reads. -/
structure ColumnDef : Type where
  name : List Char
  options : List ColumnOptionDef
deriving DecidableEq

/-- `gluesql_core::data::Schema`, reduced to what the adapter reads. -/
structure Schema : Type where
  table_name : List Char
  column_defs : List ColumnDef
deriving DecidableEq

/-- The primary-key test of `insert_schema`: some column option is
`Unique { is_primary: true }`. -/
def hasPrimary (s : Schema) : Bool :=
  s.column_defs.any fun cd =>
    cd.options.any fun od =>
      match od.option with
      | .unique true => true
      | _ => false

/-- `gluesql_core::prelude::Key`, reduced to the distinction the adapter
makes: the `Str` variant against everything else. -/
inductive GKey : Type
  | str (k : List Char)
  | otherKey
deriving DecidableEq

/-! ## Model of the remote Discord state

One guild; channels hold messages in posting order (oldest first).  Discord
snowflake identifiers are modelled by a single fresh counter `nextId` shared
by channels and messages.  `failAt` injects transport failures: `some n`
makes the `n`-th next remote call fail (each remote round trip decrements
the counter), `none` means the transport is reliable. -/

/-- `serenity::model::prelude::MessageType`, reduced to the distinction the
adapter makes (`Regular` against system messages such as `PinsAdd`). -/
inductive MsgKind : Type
  | regular
  | pinsAdd
  | otherKind
deriving DecidableEq

/-- A Discord message: snowflake id, content, pinned flag, kind. -/
structure Message : Type where
  id : Nat
  content : List Char
  pinned : Bool
  kind : MsgKind
deriving DecidableEq

/-- A guild channel: snowflake id, (lowercased-by-the-platform) name, and
its messages in posting order, oldest first. -/
structure Chan : Type where
  id : Nat
  name : List Char
  messages : List Message
deriving DecidableEq

/-- The remote state: the guild's channels, the next fresh snowflake, and
the transport-fault countdown. -/
structure RemoteState : Type where
  channels : List Chan
  nextId : Nat
  failAt : Option Nat
deriving DecidableEq

/-- Storage-level errors: `gluesql::Error::Storage` carrying its message.
Transport and decode failures are wrapped into the same variant by
`into_storage_err`, as in the source. -/
inductive GErr : Type
  | storage (msg : List Char)
deriving DecidableEq

/-- Rust's `str::to_lowercase`, per character. -/
def lower (s : List Char) : List Char := s.map Char.toLower

/-- One remote round trip consumes one step of the fault countdown; the
call fails exactly when the countdown is at zero. -/
def RemoteState.tickOnce (s : RemoteState) : Bool × RemoteState :=
  match s.failAt with
  | none => (false, s)
  | some 0 => (true, { s with failAt := none })
  | some (n + 1) => (false, { s with failAt := some n })

/-- Look a channel up by snowflake id. -/
def RemoteState.findById (s : RemoteState) (cid : Nat) : Option Chan :=
  s.channels.find? fun c => c.id = cid

/-- Apply a message-list transformation to the one channel with the given
id, leaving other channels (and the channel's id and name) unchanged. -/
def chanUpd (cid : Nat) (f : List Message → List Message) (c : Chan) : Chan :=
  if c.id = cid then { c with messages := f c.messages } else c

/-- Replace a channel's message list by id. -/
def RemoteState.mapChan (s : RemoteState) (cid : Nat)
    (f : List Message → List Message) : RemoteState :=
  { s with channels := s.channels.map (chanUpd cid f) }

/-! Error message constants, taken verbatim from the source; the `context`
strings of `src/lib.rs` stand in for the transport errors they wrap. -/

def failGetChannelsMsg : List Char := "failed get_channels".data
def failGetMessageMsg : List Char := "failed get_message".data
def failGetPinsMsg : List Char := "failed get_pins".data
def failSendMessageMsg : List Char := "failed send_message".data
def failEditMessageMsg : List Char := "failed edit_message".data
def failDeleteMessageMsg : List Char := "failed delete_message".data
def failSetPinMsg : List Char := "failed set_pin".data
def failCreateChannelMsg : List Char := "failed create_channel".data

/-- `Discord::get_channels` (`src/lib.rs`): one remote call listing the
guild's channels. -/
def get_channels (s : RemoteState) :
    RemoteState × Except GErr (List Chan) :=
  match s.tickOnce with
  | (true, s') => (s', .error (.storage failGetChannelsMsg))
  | (false, s') => (s', .ok s'.channels)

/-- `Discord::get_channel_id` (`src/lib.rs`): list the channels, return the
id of the first whose name equals the given (already lowercased) name. -/
def get_channel_id (s : RemoteState) (channel_name : List Char) :
    RemoteState × Except GErr (Option Nat) :=
  match get_channels s with
  | (s', .error e) => (s', .error e)
  | (s', .ok channels) =>
    (s', .ok ((channels.find? fun c => c.name = channel_name).map Chan.id))

/-- `Discord::get_message` (`src/lib.rs`): fetch one message by id; absent
channel or message surfaces as the wrapped remote error. -/
def get_message (s : RemoteState) (cid mid : Nat) :
    RemoteState × Except GErr Message :=
  match s.tickOnce with
  | (true, s') => (s', .error (.storage failGetMessageMsg))
  | (false, s') =>
    match s'.findById cid with
    | none => (s', .error (.storage failGetMessageMsg))
    | some c =>
      match c.messages.find? fun m => m.id = mid with
      | none => (s', .error (.storage failGetMessageMsg))
      | some m => (s', .ok m)

/-- `Discord::get_pins` (`src/lib.rs`): the pinned messages of a channel,
most recently posted first (the platform's pin ordering). -/
def get_pins (s : RemoteState) (cid : Nat) :
    RemoteState × Except GErr (List Message) :=
  match s.tickOnce with
  | (true, s') => (s', .error (.storage failGetPinsMsg))
  | (false, s') =>
    match s'.findById cid with
    | none => (s', .error (.storage failGetPinsMsg))
    | some c => (s', .ok (c.messages.filter Message.pinned).reverse)

/-- `Discord::send_message` (`src/lib.rs`): post a new regular message; the
platform assigns the fresh snowflake id. -/
def send_message (s : RemoteState) (cid : Nat) (content : List Char) :
    RemoteState × Except GErr Message :=
  match s.tickOnce with
  | (true, s') => (s', .error (.storage failSendMessageMsg))
  | (false, s') =>
    match s'.findById cid with
    | none => (s', .error (.storage failSendMessageMsg))
    | some _ =>
      let msg : Message := ⟨s'.nextId, content, false, .regular⟩
      ({ s'.mapChan cid (fun ms => ms ++ [msg]) with nextId := s'.nextId + 1 },
        .ok msg)

/-- `Discord::edit_message` (`src/lib.rs`): replace the content of an
existing message in place; id, position, pinned flag and kind unchanged. -/
def edit_message (s : RemoteState) (cid mid : Nat) (content : List Char) :
    RemoteState × Except GErr Unit :=
  match s.tickOnce with
  | (true, s') => (s', .error (.storage failEditMessageMsg))
  | (false, s') =>
    match s'.findById cid with
    | none => (s', .error (.storage failEditMessageMsg))
    | some c =>
      match c.messages.find? fun m => m.id = mid with
      | none => (s', .error (.storage failEditMessageMsg))
      | some _ =>
        (s'.mapChan cid (List.map fun m =>
          if m.id = mid then { m with content := content } else m), .ok ())

/-- `Discord::delete_message` (`src/lib.rs`): delete a message by id;
deleting an absent message surfaces as the wrapped remote error. -/
def delete_message (s : RemoteState) (cid mid : Nat) :
    RemoteState × Except GErr Unit :=
  match s.tickOnce with
  | (true, s') => (s', .error (.storage failDeleteMessageMsg))
  | (false, s') =>
    match s'.findById cid with
    | none => (s', .error (.storage failDeleteMessageMsg))
    | some c =>
      match c.messages.find? fun m => m.id = mid with
      | none => (s', .error (.storage failDeleteMessageMsg))
      | some _ =>
        (s'.mapChan cid (List.filter fun m => m.id ≠ mid), .ok ())

/-- `Discord::set_pin` (`src/lib.rs`): mark a message pinned; the platform
additionally posts a `PinsAdd` system notification message, as recorded in
the source's own trailing comments. -/
def set_pin (s : RemoteState) (cid mid : Nat) :
    RemoteState × Except GErr Unit :=
  match s.tickOnce with
  | (true, s') => (s', .error (.storage failSetPinMsg))
  | (false, s') =>
    match s'.findById cid with
    | none => (s', .error (.storage failSetPinMsg))
    | some c =>
      match c.messages.find? fun m => m.id = mid with
      | none => (s', .error (.storage failSetPinMsg))
      | some _ =>
        let sysMsg : Message := ⟨s'.nextId, [], false, .pinsAdd⟩
        ({ s'.mapChan cid (fun ms =>
            (ms.map fun m => if m.id = mid then { m with pinned := true } else m)
              ++ [sysMsg]) with nextId := s'.nextId + 1 }, .ok ())

/-- `Discord::create_channel` (`src/lib.rs`): create a channel under the
guild.  The adapter passes the original-case table name; the platform
normalizes channel names to lowercase (the spec's convention that remote
container names are pre-lowercased). -/
def create_channel (s : RemoteState) (name : List Char) :
    RemoteState × Except GErr Chan :=
  match s.tickOnce with
  | (true, s') => (s', .error (.storage failCreateChannelMsg))
  | (false, s') =>
    let c : Chan := ⟨s'.nextId, lower name, []⟩
    ({ s' with channels := s'.channels ++ [c], nextId := s'.nextId + 1 },
      .ok c)

/-- `Discord::latest_message_iter` (`src/lib.rs`): stream the channel's
messages most recent first; modelled as one remote round trip yielding the
reversed posting order. -/
def latest_message_iter (s : RemoteState) (cid : Nat) :
    RemoteState × Except GErr (List Message) :=
  match s.tickOnce with
  | (true, s') => (s', .error (.storage failGetChannelsMsg))
  | (false, s') =>
    match s'.findById cid with
    | none => (s', .error (.storage failGetChannelsMsg))
    | some c => (s', .ok c.messages.reverse)

/-! ## The storage adapter (`src/storage/mod.rs`)

`content_safe` is modelled as the identity on message content (the cache
mention-resolution leaves plain stored content unchanged).  The dynamic
parts of error messages built from foreign errors (serde's and the key
parser's text) are abstracted to fixed prefixes. -/

def fetchDataNotFoundMsg : List Char := "fetch_data) not found channel".data
def scanDataNotFoundMsg : List Char := "scan_data) not found channel".data
def appendDataNotFoundMsg : List Char := "append_data) not found channel".data
def insertDataNotFoundMsg : List Char := "insert_data) not found channel".data
def deleteDataNotFoundMsg : List Char := "delete_data) not found channel".data
def pkUnsupportedMsg : List Char := "primary key is not supported".data
def invalidKeyMsg : List Char := "invalid key".data
def invalidKeyParseMsg : List Char := "invalid key: ".data
def failedKeyParsingMsg : List Char := "failed key parsing".data
def decodeErrMsg : List Char := "decode error".data

/-- `insert_schema`'s constraint-violation message,
`format!("channel is already pinned: {channel_name}")`. -/
def alreadyPinnedMsg (channel_name : List Char) : List Char :=
  "channel is already pinned: ".data ++ channel_name

/-- Rust's `str::parse::<u64>` on a key string, reduced to the unsigned
decimal digit form the adapter stores (`Nat.repr` of a snowflake): a
non-empty all-digit string whose value fits in 64 bits. -/
def parseU64 (l : List Char) : Option Nat :=
  if l ≠ [] ∧ l.all Char.isDigit then
    let n := l.foldl (fun a c => a * 10 + (c.toNat - 48)) 0
    if n < 2 ^ 64 then some n else none
  else none

/-- The decimal string form of a message id, `message.id.0.to_string()`. -/
def natKey (n : Nat) : List Char := (Nat.repr n).data

/-- `DiscordStorage::get_schema` (`src/storage/mod.rs`): read the pins, an
empty pin set means no schema, otherwise decode the first pin's content as
a `DiscordSchema`, propagating decode failure. -/
def get_schema (slib : JsonLib Schema) (s : RemoteState) (channel : Chan) :
    RemoteState × Except GErr (Option Schema) :=
  match get_pins s channel.id with
  | (s1, .error e) => (s1, .error e)
  | (s1, .ok pins) =>
    match pins with
    | [] => (s1, .ok none)
    | message :: _ =>
      match DiscordSchema.from_str slib message.content with
      | none => (s1, .error (.storage decodeErrMsg))
      | some schema => (s1, .ok (some schema))

/-- `Store::fetch_schema`: lowercase the table name, list the channels,
find the one so named; no channel means `Ok(None)`. -/
def fetch_schema (slib : JsonLib Schema) (s : RemoteState)
    (channel_name : List Char) : RemoteState × Except GErr (Option Schema) :=
  let cn := lower channel_name
  match get_channels s with
  | (s1, .error e) => (s1, .error e)
  | (s1, .ok channels) =>
    match channels.find? fun c => c.name = cn with
    | some channel => get_schema slib s1 channel
    | none => (s1, .ok none)

/-- The key-to-message-id front end of `fetch_data`: only `Key::Str` with a
numeric value is accepted. -/
def keyToMessageId (key : GKey) : Except GErr Nat :=
  match key with
  | .str k =>
    match parseU64 k with
    | some n => .ok n
    | none => .error (.storage invalidKeyParseMsg)
  | .otherKey => .error (.storage invalidKeyMsg)

/-- `Store::fetch_data`: parse the key, resolve the channel (failing with a
not-found storage error when absent), fetch the message — any `get_message`
error is discarded by `.ok()` into `Ok(None)` — then decode the content. -/
def fetch_data {ρ : Type} (lib : JsonLib ρ) (s : RemoteState)
    (channel_name : List Char) (key : GKey) :
    RemoteState × Except GErr (Option ρ) :=
  let cn := lower channel_name
  match keyToMessageId key with
  | .error e => (s, .error e)
  | .ok message_id =>
    match get_channel_id s cn with
    | (s1, .error e) => (s1, .error e)
    | (s1, .ok none) => (s1, .error (.storage fetchDataNotFoundMsg))
    | (s1, .ok (some cid)) =>
      match get_message s1 cid message_id with
      | (s2, .error _) => (s2, .ok none)
      | (s2, .ok message) =>
        match from_discord_json lib message.content with
        | none => (s2, .error (.storage decodeErrMsg))
        | some row => (s2, .ok (some row))

/-- The per-message closure of `scan_data`'s `map_ok`: a regular, unpinned
message decodes into `Ok(Some((key, row)))` (a decode failure becomes an
`Err` item), everything else becomes `Ok(None)`. -/
def scanMapOk {ρ : Type} (lib : JsonLib ρ) (m : Message) :
    Except GErr (Option (GKey × ρ)) :=
  if m.kind = .regular ∧ m.pinned = false then
    match from_discord_json lib m.content with
    | none => .error (.storage decodeErrMsg)
    | some row => .ok (some (.str (natKey m.id), row))
  else .ok none

/-- Rust's `Result<Option<α>, E>::transpose`. -/
def exceptTranspose {α : Type} : Except GErr (Option α) → Option (Except GErr α)
  | .ok none => none
  | .ok (some a) => some (.ok a)
  | .error e => some (.error e)

/-- `Store::scan_data`: resolve the channel (not-found storage error when
absent), drain the newest-first message stream through `scanMapOk`, then
`filter_map(transpose)` and reverse, so the returned row iterator is
oldest-first with decode failures kept as error items. -/
def scan_data {ρ : Type} (lib : JsonLib ρ) (s : RemoteState)
    (channel_name : List Char) :
    RemoteState × Except GErr (List (Except GErr (GKey × ρ))) :=
  let cn := lower channel_name
  match get_channel_id s cn with
  | (s1, .error e) => (s1, .error e)
  | (s1, .ok none) => (s1, .error (.storage scanDataNotFoundMsg))
  | (s1, .ok (some cid)) =>
    match latest_message_iter s1 cid with
    | (s2, .error e) => (s2, .error e)
    | (s2, .ok messages) =>
      (s2, .ok (((messages.map (scanMapOk lib)).filterMap exceptTranspose).reverse))

/-- `StoreMut::insert_schema`: reject any primary-key column up front;
resolve or create the channel; refuse when a pin already exists; otherwise
post the encoded schema and pin it. -/
def insert_schema (slib : JsonLib Schema) (s : RemoteState) (schema : Schema) :
    RemoteState × Except GErr Unit :=
  if hasPrimary schema then (s, .error (.storage pkUnsupportedMsg)) else
  match get_channel_id s (lower schema.table_name) with
  | (s1, .error e) => (s1, .error e)
  | (s1, .ok copt) =>
    match
      (match copt with
       | some cid => (s1, Except.ok cid)
       | none =>
         match create_channel s1 schema.table_name with
         | (s2, .ok c) => (s2, Except.ok c.id)
         | (s2, .error e) => (s2, Except.error e)) with
    | (s2, .error e) => (s2, .error e)
    | (s2, .ok cid) =>
      match get_pins s2 cid with
      | (s3, .error e) => (s3, .error e)
      | (s3, .ok pin_messages) =>
        if pin_messages ≠ [] then
          (s3, .error (.storage (alreadyPinnedMsg (lower schema.table_name))))
        else
          match send_message s3 cid (to_discord_json slib schema) with
          | (s4, .error e) => (s4, .error e)
          | (s4, .ok message) =>
            match set_pin s4 cid message.id with
            | (s5, .error e) => (s5, .error e)
            | (s5, .ok _) => (s5, .ok ())

/-- The loop body of `append_data`: encode and post one row. -/
def append_row {ρ : Type} (lib : JsonLib ρ) (s : RemoteState) (cid : Nat)
    (row : ρ) : RemoteState × Except GErr Unit :=
  match send_message s cid (to_discord_json lib row) with
  | (s1, .error e) => (s1, .error e)
  | (s1, .ok _) => (s1, .ok ())

/-- The `for`-loop shared by the three multi-row mutations: run the step on
each item in order, returning the first failure (later items unprocessed,
earlier side effects kept). -/
def rowLoop {α : Type} (step : RemoteState → α → RemoteState × Except GErr Unit) :
    RemoteState → List α → RemoteState × Except GErr Unit
  | s, [] => (s, .ok ())
  | s, x :: xs =>
    match step s x with
    | (s1, .ok _) => rowLoop step s1 xs
    | (s1, .error e) => (s1, .error e)

/-- The row loop of `append_data`. -/
def append_rows {ρ : Type} (lib : JsonLib ρ) (s : RemoteState) (cid : Nat)
    (rows : List ρ) : RemoteState × Except GErr Unit :=
  rowLoop (fun s' row => append_row lib s' cid row) s rows

/-- `StoreMut::append_data`: resolve the channel (not-found error when
absent), then post each row in order. -/
def append_data {ρ : Type} (lib : JsonLib ρ) (s : RemoteState)
    (channel_name : List Char) (rows : List ρ) :
    RemoteState × Except GErr Unit :=
  let cn := lower channel_name
  match get_channel_id s cn with
  | (s1, .error e) => (s1, .error e)
  | (s1, .ok none) => (s1, .error (.storage appendDataNotFoundMsg))
  | (s1, .ok (some cid)) => append_rows lib s1 cid rows

/-- The loop body of `insert_data` (`update_or_insert_row`): parse the key,
probe the message with `get_message(..).ok()`, then edit in place when it
exists and post a new message when it does not. -/
def update_or_insert_row {ρ : Type} (lib : JsonLib ρ) (s : RemoteState)
    (cid : Nat) (kr : GKey × ρ) : RemoteState × Except GErr Unit :=
  match kr.1 with
  | .otherKey => (s, .error (.storage invalidKeyMsg))
  | .str k =>
    match parseU64 k with
    | none => (s, .error (.storage failedKeyParsingMsg))
    | some message_id =>
      let content := to_discord_json lib kr.2
      match get_message s cid message_id with
      | (s1, .ok _) =>
        match edit_message s1 cid message_id content with
        | (s2, .error e) => (s2, .error e)
        | (s2, .ok _) => (s2, .ok ())
      | (s1, .error _) =>
        match send_message s1 cid content with
        | (s2, .error e) => (s2, .error e)
        | (s2, .ok _) => (s2, .ok ())

/-- The row loop of `insert_data`. -/
def upsert_rows {ρ : Type} (lib : JsonLib ρ) (s : RemoteState) (cid : Nat)
    (rows : List (GKey × ρ)) : RemoteState × Except GErr Unit :=
  rowLoop (fun s' kr => update_or_insert_row lib s' cid kr) s rows

/-- `StoreMut::insert_data`: resolve the channel (not-found error when
absent), then upsert each `(key, row)` pair in order. -/
def insert_data {ρ : Type} (lib : JsonLib ρ) (s : RemoteState)
    (channel_name : List Char) (rows : List (GKey × ρ)) :
    RemoteState × Except GErr Unit :=
  let cn := lower channel_name
  match get_channel_id s cn with
  | (s1, .error e) => (s1, .error e)
  | (s1, .ok none) => (s1, .error (.storage insertDataNotFoundMsg))
  | (s1, .ok (some cid)) => upsert_rows lib s1 cid rows

/-- The loop body of `delete_data` (`delete_row`): parse the key, delete the
message. -/
def delete_row (s : RemoteState) (cid : Nat) (key : GKey) :
    RemoteState × Except GErr Unit :=
  match key with
  | .otherKey => (s, .error (.storage invalidKeyMsg))
  | .str k =>
    match parseU64 k with
    | none => (s, .error (.storage failedKeyParsingMsg))
    | some message_id => delete_message s cid message_id

/-- The key loop of `delete_data`. -/
def delete_keys (s : RemoteState) (cid : Nat) (keys : List GKey) :
    RemoteState × Except GErr Unit :=
  rowLoop (fun s' key => delete_row s' cid key) s keys

/-- `StoreMut::delete_data`: resolve the channel (not-found error when
absent), then delete each key in order. -/
def delete_data (s : RemoteState) (channel_name : List Char)
    (keys : List GKey) : RemoteState × Except GErr Unit :=
  let cn := lower channel_name
  match get_channel_id s cn with
  | (s1, .error e) => (s1, .error e)
  | (s1, .ok none) => (s1, .error (.storage deleteDataNotFoundMsg))
  | (s1, .ok (some cid)) => delete_keys s1 cid keys

/-! ## Concrete serialization instances used to instantiate theorems -/

/-- A concrete row serialization: a natural number printed in unary, parsed
back by counting after trimming whitespace.  Satisfies `WsAgrees` at every
value. -/
def natLib : JsonLib Nat where
  to_string_pretty n := List.replicate n 'x'
  from_str l :=
    let t := rustTrim l
    if t.all fun c => c = 'x' then some t.length else none

/-- A one-point schema serialization: every text parses back to the fixed
schema `s0`.  Satisfies `WsAgrees` at `s0`. -/
def schemaStubLib (s0 : Schema) : JsonLib Schema where
  to_string_pretty _ := ['s']
  from_str _ := some s0

/-! ## Happy-path reduction lemmas -/

theorem tickOnce_none (s : RemoteState) (h : s.failAt = none) :
    s.tickOnce = (false, s) := by
  simp [RemoteState.tickOnce, h]

theorem get_channels_none (s : RemoteState) (h : s.failAt = none) :
    get_channels s = (s, .ok s.channels) := by
  rw [get_channels, tickOnce_none s h]

theorem get_channel_id_none (s : RemoteState) (n : List Char)
    (h : s.failAt = none) :
    get_channel_id s n =
      (s, .ok ((s.channels.find? fun c => c.name = n).map Chan.id)) := by
  rw [get_channel_id, get_channels_none s h]

/-! ## C1: codec round trip -/

/-- C1.  Codec round-trip: for every representable schema or row value `v`
(one whose external pretty-printed form the external parser reads back,
`WsAgrees`), decoding the encoded form returns the original value:
`from_discord_json (to_discord_json v) = some v`, and
`DiscordSchema.from_str (to_codeblock s) = some s` for every schema `s`. -/
theorem c1_codec_round_trip {α σ : Type} (lib : JsonLib α) (slib : JsonLib σ)
    (v : α) (sc : σ) (hv : WsAgrees lib v) (hs : WsAgrees slib sc) :
    from_discord_json lib (to_discord_json lib v) = some v ∧
      DiscordSchema.from_str slib (DiscordSchema.to_codeblock slib sc) =
        some sc := by
  constructor
  · rw [from_to_discord_json]
    exact hv
  · rw [DiscordSchema.from_str, DiscordSchema.to_codeblock, stripFence_wrap]
    exact hs

/-- Witness for C1 at the unary row codec and the one-point schema codec. -/
theorem c1_codec_round_trip_witness :
    WsAgrees natLib 3 ∧
      WsAgrees (schemaStubLib ⟨"user".data, []⟩) ⟨"user".data, []⟩ ∧
      from_discord_json natLib (to_discord_json natLib 3) = some 3 ∧
      DiscordSchema.from_str (schemaStubLib ⟨"user".data, []⟩)
        (DiscordSchema.to_codeblock (schemaStubLib ⟨"user".data, []⟩)
          ⟨"user".data, []⟩) = some ⟨"user".data, []⟩ := by
  refine ⟨by unfold WsAgrees; decide, rfl, ?_⟩
  have h := c1_codec_round_trip natLib (schemaStubLib ⟨"user".data, []⟩)
    3 ⟨"user".data, []⟩ (by unfold WsAgrees; decide) rfl
  exact h

/-! ## C7: primary-key rejection -/

/-- C7.  Primary-key rejection: a schema in which some column declares a
primary-key constraint makes `insert_schema` fail with the constraint
violation before any remote operation — the remote state is returned
exactly unchanged (no channel created, no message posted or pinned). -/
theorem c7_primary_key_rejected (slib : JsonLib Schema) (s : RemoteState)
    (schema : Schema) (h : hasPrimary schema = true) :
    insert_schema slib s schema = (s, .error (.storage pkUnsupportedMsg)) := by
  rw [insert_schema, if_pos h]

/-- Witness for C7: a one-column schema whose column declares
`Unique { is_primary: true }`. -/
theorem c7_primary_key_rejected_witness :
    hasPrimary ⟨"user".data, [⟨"id".data, [⟨.unique true⟩]⟩]⟩ = true ∧
      insert_schema (schemaStubLib ⟨"user".data, []⟩) ⟨[], 0, none⟩
          ⟨"user".data, [⟨"id".data, [⟨.unique true⟩]⟩]⟩ =
        (⟨[], 0, none⟩, .error (.storage pkUnsupportedMsg)) :=
  ⟨by decide, c7_primary_key_rejected _ _ _ (by decide)⟩

/-! ## C2: missing-table behavior -/

/-- Counterexample to C2 as stated: on a guild with no channels at all (so
the table does not exist), `fetch_data` and `scan_data` do **not** return
`None`/empty without error — both fail with a not-found storage error. -/
theorem c2_missing_table_counterexample :
    (fetch_data natLib ⟨[], 0, none⟩ "t".data (.str "1".data)).2 =
        .error (.storage fetchDataNotFoundMsg) ∧
      (scan_data natLib ⟨[], 0, none⟩ "t".data).2 =
        .error (.storage scanDataNotFoundMsg) := by
  constructor <;> rfl

/-- C2 (amended).  Missing-table behavior: for every table name with no
corresponding channel in the guild, `fetch_schema` returns `None` without
error, while `fetch_data`, `scan_data`, `insert_data`, `delete_data` and
`append_data` all fail with a not-found error. -/
theorem c2_missing_table {ρ : Type} (lib : JsonLib ρ) (slib : JsonLib Schema)
    (s : RemoteState) (name k : List Char) (n : Nat) (rows : List ρ)
    (krs : List (GKey × ρ)) (keys : List GKey)
    (hf : s.failAt = none)
    (hch : (s.channels.find? fun c => c.name = lower name) = none)
    (hk : parseU64 k = some n) :
    fetch_schema slib s name = (s, .ok none) ∧
      fetch_data lib s name (.str k) =
        (s, .error (.storage fetchDataNotFoundMsg)) ∧
      scan_data lib s name = (s, .error (.storage scanDataNotFoundMsg)) ∧
      append_data lib s name rows =
        (s, .error (.storage appendDataNotFoundMsg)) ∧
      insert_data lib s name krs =
        (s, .error (.storage insertDataNotFoundMsg)) ∧
      delete_data s name keys =
        (s, .error (.storage deleteDataNotFoundMsg)) := by
  refine ⟨?_, ?_, ?_, ?_, ?_, ?_⟩
  · rw [fetch_schema, get_channels_none s hf]
    simp only [hch]
  · rw [fetch_data]
    simp only [keyToMessageId, hk, get_channel_id_none s _ hf, hch, Option.map_none']
  · rw [scan_data]
    simp only [get_channel_id_none s _ hf, hch, Option.map_none']
  · rw [append_data]
    simp only [get_channel_id_none s _ hf, hch, Option.map_none']
  · rw [insert_data]
    simp only [get_channel_id_none s _ hf, hch, Option.map_none']
  · rw [delete_data]
    simp only [get_channel_id_none s _ hf, hch, Option.map_none']

/-- Witness for C2 (amended) on the empty guild. -/
theorem c2_missing_table_witness :
    fetch_schema (schemaStubLib ⟨"t".data, []⟩) ⟨[], 0, none⟩ "t".data =
        (⟨[], 0, none⟩, .ok none) ∧
      fetch_data natLib ⟨[], 0, none⟩ "t".data (.str "1".data) =
        (⟨[], 0, none⟩, .error (.storage fetchDataNotFoundMsg)) ∧
      scan_data natLib ⟨[], 0, none⟩ "t".data =
        (⟨[], 0, none⟩, .error (.storage scanDataNotFoundMsg)) ∧
      append_data natLib ⟨[], 0, none⟩ "t".data [1] =
        (⟨[], 0, none⟩, .error (.storage appendDataNotFoundMsg)) ∧
      insert_data natLib ⟨[], 0, none⟩ "t".data [(.str "1".data, 1)] =
        (⟨[], 0, none⟩, .error (.storage insertDataNotFoundMsg)) ∧
      delete_data ⟨[], 0, none⟩ "t".data [.str "1".data] =
        (⟨[], 0, none⟩, .error (.storage deleteDataNotFoundMsg)) :=
  c2_missing_table natLib (schemaStubLib ⟨"t".data, []⟩) ⟨[], 0, none⟩
    "t".data "1".data 1 [1] [(.str "1".data, 1)] [.str "1".data]
    rfl rfl (by decide)

/-! ## C9: fetch_data maps every get_message failure to None -/

/-- C9.  `fetch_data` discards every failure of the single-message
retrieval with `.ok()`: for an existing table and a well-formed numeric
key, whenever the embedded `get_message` call fails — for any reason,
transport failure included — `fetch_data` returns `Ok(None)`, so a missing
row and a failed remote read are indistinguishable to the caller. -/
theorem c9_fetch_data_error_to_none {ρ : Type} (lib : JsonLib ρ)
    (s s1 s2 : RemoteState) (name k : List Char) (n cid : Nat) (e : GErr)
    (hk : parseU64 k = some n)
    (hch : get_channel_id s (lower name) = (s1, .ok (some cid)))
    (hmsg : get_message s1 cid n = (s2, .error e)) :
    fetch_data lib s name (.str k) = (s2, .ok none) := by
  rw [fetch_data]
  simp only [keyToMessageId, hk, hch, hmsg]

/-- Witness for C9: the channel and even the requested message exist, but
the transport fails on the `get_message` round trip (`failAt = some 1`);
`fetch_data` still answers `Ok(None)`. -/
theorem c9_fetch_data_error_to_none_witness :
    fetch_data natLib
        ⟨[⟨1, "t".data, [⟨5, "x".data, false, .regular⟩]⟩], 10, some 1⟩
        "t".data (.str "5".data) =
      (⟨[⟨1, "t".data, [⟨5, "x".data, false, .regular⟩]⟩], 10, none⟩,
        .ok none) :=
  c9_fetch_data_error_to_none natLib _ _ _ "t".data "5".data 5 1
    (.storage failGetMessageMsg) (by decide) rfl rfl

/-! ## C5 and C10: scan_data -/

/-- On a reliable transport, `scan_data` of an existing channel returns the
per-message results in the channel's posting order (oldest first): the
newest-first stream is reversed after collection. -/
theorem scan_data_found {ρ : Type} (lib : JsonLib ρ) (s : RemoteState)
    (name : List Char) (c : Chan)
    (hf : s.failAt = none)
    (hch : (s.channels.find? fun ch => ch.name = lower name) = some c)
    (hid : s.findById c.id = some c) :
    scan_data lib s name =
      (s, .ok (c.messages.filterMap fun m => exceptTranspose (scanMapOk lib m))) := by
  rw [scan_data]
  simp only [get_channel_id_none s _ hf, hch, Option.map_some']
  rw [latest_message_iter, tickOnce_none s hf]
  simp only [hid, List.filterMap_map, List.filterMap_reverse, List.reverse_reverse,
    Function.comp_def]

/-- C5.  Scan ordering: for a table whose channel exists (reliable
transport), the underlying message stream is retrieved most-recent-first
(`latest_message_iter` yields the reverse of the posting order), yet
`scan_data` returns the row items in posting order, oldest first — rows
appended in order A, B, C come back in order A, B, C. -/
theorem c5_scan_ordering {ρ : Type} (lib : JsonLib ρ) (s : RemoteState)
    (name : List Char) (c : Chan)
    (hf : s.failAt = none)
    (hch : (s.channels.find? fun ch => ch.name = lower name) = some c)
    (hid : s.findById c.id = some c) :
    latest_message_iter s c.id = (s, .ok c.messages.reverse) ∧
      scan_data lib s name =
        (s, .ok (c.messages.filterMap fun m => exceptTranspose (scanMapOk lib m))) := by
  constructor
  · rw [latest_message_iter, tickOnce_none s hf]
    simp only [hid]
  · exact scan_data_found lib s name c hf hch hid

/-- The channel used by the `scan_data` witnesses: a pinned schema message,
the platform's `PinsAdd` notification, then three rows appended in the
order 1, 2, 3. -/
def scanChan : Chan :=
  ⟨1, "t".data,
    [⟨2, "schema".data, true, .regular⟩,
     ⟨3, [], false, .pinsAdd⟩,
     ⟨4, to_discord_json natLib 1, false, .regular⟩,
     ⟨5, to_discord_json natLib 2, false, .regular⟩,
     ⟨6, to_discord_json natLib 3, false, .regular⟩]⟩

/-- The guild state used by the `scan_data` witnesses. -/
def scanState : RemoteState := ⟨[scanChan], 7, none⟩

/-- Witness for C5: rows appended in order 1, 2, 3 come back in that order
(queried under a different case of the table name), with the schema pin and
the system message excluded. -/
theorem c5_scan_ordering_witness :
    latest_message_iter scanState scanChan.id =
        (scanState, .ok scanChan.messages.reverse) ∧
      scan_data natLib scanState "T".data =
        (scanState, .ok
          [.ok (.str "4".data, 1), .ok (.str "5".data, 2),
           .ok (.str "6".data, 3)]) := by
  have h := c5_scan_ordering natLib scanState "T".data scanChan rfl (by decide) rfl
  exact ⟨h.1, h.2.trans (by rfl)⟩

/-- C10.  `scan_data` defers per-row decode failures into the returned
iterator: when some regular, non-pinned message of an existing channel has
content that fails to decode as a row, the `scan_data` call itself still
returns `Ok`, and the returned item list contains an error item for that
message. -/
theorem c10_scan_decode_error_deferred {ρ : Type} (lib : JsonLib ρ)
    (s : RemoteState) (name : List Char) (c : Chan) (m : Message)
    (hf : s.failAt = none)
    (hch : (s.channels.find? fun ch => ch.name = lower name) = some c)
    (hid : s.findById c.id = some c)
    (hm : m ∈ c.messages)
    (hkind : m.kind = .regular)
    (hpin : m.pinned = false)
    (hdec : from_discord_json lib m.content = none) :
    ∃ items, scan_data lib s name = (s, .ok items) ∧
      Except.error (.storage decodeErrMsg) ∈ items := by
  refine ⟨_, scan_data_found lib s name c hf hch hid, ?_⟩
  rw [List.mem_filterMap]
  refine ⟨m, hm, ?_⟩
  rw [scanMapOk, if_pos ⟨hkind, hpin⟩, hdec]
  rfl

/-- Witness for C10: a channel whose second row message holds undecodable
content; the scan returns `Ok` with an error item inside. -/
theorem c10_scan_decode_error_deferred_witness :
    ∃ items,
      scan_data natLib
          ⟨[⟨1, "t".data,
             [⟨2, to_discord_json natLib 1, false, .regular⟩,
              ⟨3, "junk".data, false, .regular⟩]⟩], 4, none⟩
          "t".data =
        (⟨[⟨1, "t".data,
            [⟨2, to_discord_json natLib 1, false, .regular⟩,
             ⟨3, "junk".data, false, .regular⟩]⟩], 4, none⟩, .ok items) ∧
      Except.error (.storage decodeErrMsg) ∈ items :=
  c10_scan_decode_error_deferred natLib _ "t".data
    ⟨1, "t".data,
      [⟨2, to_discord_json natLib 1, false, .regular⟩,
       ⟨3, "junk".data, false, .regular⟩]⟩
    ⟨3, "junk".data, false, .regular⟩ rfl (by decide)
    rfl (by decide) rfl rfl (by decide)

/-! ## C6: upsert asymmetry of insert_data -/

/-- C6.  Upsert asymmetry: on an existing table (reliable transport, valid
numeric key `k` denoting id `n`), `insert_data` with a key whose message
exists edits that message in place — the channel's message list is mapped
so that only the message with id `n` has its content replaced, identifiers
untouched; with a key whose message does not exist, a new message is posted
whose platform-assigned identifier is the fresh snowflake `s.nextId`, which
differs from the requested key. -/
theorem c6_upsert_asymmetry {ρ : Type} (lib : JsonLib ρ) (s : RemoteState)
    (name k : List Char) (n : Nat) (row : ρ) (c : Chan)
    (hf : s.failAt = none)
    (hch : (s.channels.find? fun ch => ch.name = lower name) = some c)
    (hid : s.findById c.id = some c)
    (hk : parseU64 k = some n)
    (hne : s.nextId ≠ n) :
    ((∃ m, (c.messages.find? fun m' => m'.id = n) = some m) →
        insert_data lib s name [(.str k, row)] =
          (s.mapChan c.id (List.map fun m' =>
            if m'.id = n then { m' with content := to_discord_json lib row }
            else m'), .ok ())) ∧
      ((c.messages.find? fun m' => m'.id = n) = none →
        insert_data lib s name [(.str k, row)] =
          ({ s.mapChan c.id
              (fun ms => ms ++ [⟨s.nextId, to_discord_json lib row, false, .regular⟩])
              with nextId := s.nextId + 1 }, .ok ()) ∧
          s.nextId ≠ n) := by
  constructor
  · rintro ⟨m, hm⟩
    rw [insert_data]
    simp only [get_channel_id_none s _ hf, hch, Option.map_some']
    rw [upsert_rows, rowLoop]
    rw [update_or_insert_row]
    simp only [hk]
    rw [get_message, tickOnce_none s hf]
    simp only [hid, hm]
    rw [edit_message, tickOnce_none s hf]
    simp only [hid, hm]
    rw [rowLoop]
  · intro hm
    refine ⟨?_, hne⟩
    rw [insert_data]
    simp only [get_channel_id_none s _ hf, hch, Option.map_some']
    rw [upsert_rows, rowLoop]
    rw [update_or_insert_row]
    simp only [hk]
    rw [get_message, tickOnce_none s hf]
    simp only [hid, hm]
    rw [send_message, tickOnce_none s hf]
    simp only [hid]
    rw [rowLoop]

/-- Witness for C6: in a one-row channel (row id 5, next snowflake 9),
upserting key "5" edits in place, and upserting key "8" posts a new message
with platform id 9 ≠ 8. -/
theorem c6_upsert_asymmetry_witness :
    (insert_data natLib
        ⟨[⟨1, "t".data, [⟨5, to_discord_json natLib 1, false, .regular⟩]⟩], 9, none⟩
        "t".data [(.str "5".data, 7)] =
      (⟨[⟨1, "t".data, [⟨5, to_discord_json natLib 7, false, .regular⟩]⟩], 9, none⟩,
        .ok ())) ∧
    (insert_data natLib
        ⟨[⟨1, "t".data, [⟨5, to_discord_json natLib 1, false, .regular⟩]⟩], 9, none⟩
        "t".data [(.str "8".data, 7)] =
      (⟨[⟨1, "t".data,
          [⟨5, to_discord_json natLib 1, false, .regular⟩,
           ⟨9, to_discord_json natLib 7, false, .regular⟩]⟩], 10, none⟩,
        .ok ())) ∧
    (9 : Nat) ≠ 8 := by
  have hedit := (c6_upsert_asymmetry natLib
    ⟨[⟨1, "t".data, [⟨5, to_discord_json natLib 1, false, .regular⟩]⟩], 9, none⟩
    "t".data "5".data 5 7
    ⟨1, "t".data, [⟨5, to_discord_json natLib 1, false, .regular⟩]⟩
    rfl (by decide) rfl (by decide) (by decide)).1
    ⟨⟨5, to_discord_json natLib 1, false, .regular⟩, by decide⟩
  have hins := (c6_upsert_asymmetry natLib
    ⟨[⟨1, "t".data, [⟨5, to_discord_json natLib 1, false, .regular⟩]⟩], 9, none⟩
    "t".data "8".data 8 7
    ⟨1, "t".data, [⟨5, to_discord_json natLib 1, false, .regular⟩]⟩
    rfl (by decide) rfl (by decide) (by decide)).2 (by decide)
  refine ⟨hedit.trans (by rfl), (hins.1).trans (by rfl), by decide⟩

/-! ## C8: multi-row non-atomicity -/

/-- If a row loop's first `i` steps succeed and step `i` fails, the whole
loop returns exactly the failing step's state and error: the side effects
of the earlier steps are kept and later items are never processed. -/
theorem rowLoop_prefix_error {α : Type}
    (step : RemoteState → α → RemoteState × Except GErr Unit)
    (s s_i s_f : RemoteState) (xs : List α) (i : Nat) (e : GErr)
    (hi : i < xs.length)
    (hpre : rowLoop step s (xs.take i) = (s_i, .ok ()))
    (hfail : step s_i (xs.get ⟨i, hi⟩) = (s_f, .error e)) :
    rowLoop step s xs = (s_f, .error e) := by
  induction i generalizing s xs with
  | zero =>
    cases xs with
    | nil => exact absurd hi (by simp)
    | cons x xs' =>
      simp only [List.take_zero, rowLoop] at hpre
      have hs : s = s_i := congrArg Prod.fst hpre
      subst hs
      have hfail' : step s x = (s_f, .error e) := hfail
      rw [rowLoop, hfail']
  | succ i ih =>
    cases xs with
    | nil => exact absurd hi (by simp)
    | cons x xs' =>
      rw [List.take_succ_cons, rowLoop] at hpre
      rw [rowLoop]
      rcases hstep : step s x with ⟨s1, r⟩
      rw [hstep] at hpre
      cases r with
      | error e' => simp at hpre
      | ok u =>
        exact ih s1 xs' (Nat.lt_of_succ_lt_succ hi) hpre hfail

theorem tickOnce_channels (s : RemoteState) :
    (s.tickOnce).2.channels = s.channels := by
  rcases h : s.failAt with - | n
  · simp [RemoteState.tickOnce, h]
  · cases n <;> simp [RemoteState.tickOnce, h]

theorem get_message_state_channels (s : RemoteState) (cid mid : Nat) :
    (get_message s cid mid).1.channels = s.channels := by
  rw [get_message]
  have hch := tickOnce_channels s
  split
  · next s1 heq =>
    rw [heq] at hch
    exact hch
  · next s1 heq =>
    rw [heq] at hch
    split
    · exact hch
    · split <;> exact hch

theorem send_message_error_channels {s s' : RemoteState} {cid : Nat}
    {content : List Char} {e : GErr}
    (h : send_message s cid content = (s', .error e)) :
    s'.channels = s.channels := by
  rw [send_message] at h
  have hch := tickOnce_channels s
  split at h
  · next s1 heq =>
    rw [heq] at hch
    obtain rfl : s1 = s' := congrArg Prod.fst h
    exact hch
  · next s1 heq =>
    rw [heq] at hch
    split at h
    · obtain rfl : s1 = s' := congrArg Prod.fst h
      exact hch
    · simp at h

theorem edit_message_error_channels {s s' : RemoteState} {cid mid : Nat}
    {content : List Char} {e : GErr}
    (h : edit_message s cid mid content = (s', .error e)) :
    s'.channels = s.channels := by
  rw [edit_message] at h
  have hch := tickOnce_channels s
  split at h
  · next s1 heq =>
    rw [heq] at hch
    obtain rfl : s1 = s' := congrArg Prod.fst h
    exact hch
  · next s1 heq =>
    rw [heq] at hch
    split at h
    · obtain rfl : s1 = s' := congrArg Prod.fst h
      exact hch
    · split at h
      · obtain rfl : s1 = s' := congrArg Prod.fst h
        exact hch
      · simp at h

theorem delete_message_error_channels {s s' : RemoteState} {cid mid : Nat}
    {e : GErr}
    (h : delete_message s cid mid = (s', .error e)) :
    s'.channels = s.channels := by
  rw [delete_message] at h
  have hch := tickOnce_channels s
  split at h
  · next s1 heq =>
    rw [heq] at hch
    obtain rfl : s1 = s' := congrArg Prod.fst h
    exact hch
  · next s1 heq =>
    rw [heq] at hch
    split at h
    · obtain rfl : s1 = s' := congrArg Prod.fst h
      exact hch
    · split at h
      · obtain rfl : s1 = s' := congrArg Prod.fst h
        exact hch
      · simp at h

/-- A failing `append_data` loop body leaves the channels untouched. -/
theorem append_row_error_channels {ρ : Type} {lib : JsonLib ρ}
    {s s' : RemoteState} {cid : Nat} {row : ρ} {e : GErr}
    (h : append_row lib s cid row = (s', .error e)) :
    s'.channels = s.channels := by
  rw [append_row] at h
  split at h
  · next s1 e' hsend =>
    obtain rfl : s1 = s' := congrArg Prod.fst h
    exact send_message_error_channels hsend
  · simp at h

/-- A failing `insert_data` loop body leaves the channels untouched. -/
theorem update_or_insert_row_error_channels {ρ : Type} {lib : JsonLib ρ}
    {s s' : RemoteState} {cid : Nat} {kr : GKey × ρ} {e : GErr}
    (h : update_or_insert_row lib s cid kr = (s', .error e)) :
    s'.channels = s.channels := by
  rcases kr with ⟨key, row⟩
  cases key with
  | otherKey =>
    rw [update_or_insert_row] at h
    obtain rfl : s = s' := congrArg Prod.fst h
    rfl
  | str k =>
    rw [update_or_insert_row] at h
    simp only at h
    split at h
    · obtain rfl : s = s' := congrArg Prod.fst h
      rfl
    · next n hp =>
      split at h
      · next s1 m hg =>
        have h1 : s1.channels = s.channels := by
          have h2 := get_message_state_channels s cid n
          rw [hg] at h2
          exact h2
        split at h
        · next s2 e2 he =>
          obtain rfl : s2 = s' := congrArg Prod.fst h
          rw [edit_message_error_channels he, h1]
        · simp at h
      · next s1 e1 hg =>
        have h1 : s1.channels = s.channels := by
          have h2 := get_message_state_channels s cid n
          rw [hg] at h2
          exact h2
        split at h
        · next s2 e2 hs2 =>
          obtain rfl : s2 = s' := congrArg Prod.fst h
          rw [send_message_error_channels hs2, h1]
        · simp at h

/-- A failing `delete_data` loop body leaves the channels untouched. -/
theorem delete_row_error_channels {s s' : RemoteState} {cid : Nat}
    {key : GKey} {e : GErr}
    (h : delete_row s cid key = (s', .error e)) :
    s'.channels = s.channels := by
  cases key with
  | otherKey =>
    rw [delete_row] at h
    obtain rfl : s = s' := congrArg Prod.fst h
    rfl
  | str k =>
    rw [delete_row] at h
    split at h
    · obtain rfl : s = s' := congrArg Prod.fst h
      rfl
    · exact delete_message_error_channels h

/-- C8.  Multi-row non-atomicity: when a multi-row `append_data`,
`insert_data` or `delete_data` call fails while processing the item at
position `i` (the first `i` loop iterations succeeded, iteration `i`'s
remote work failed), the call returns exactly the failing position's error,
and the returned remote state keeps the side effects of the earlier
positions — its channels are precisely those after the successful prefix;
nothing is rolled back and no partial success is reported. -/
theorem c8_multi_row_non_atomicity {ρ : Type} (lib : JsonLib ρ)
    (s s0 : RemoteState) (name : List Char) (cid : Nat)
    (hch : get_channel_id s (lower name) = (s0, .ok (some cid))) :
    (∀ (rows : List ρ) (i : Nat) (hi : i < rows.length)
        (s_i s_f : RemoteState) (e : GErr),
        append_rows lib s0 cid (rows.take i) = (s_i, .ok ()) →
        append_row lib s_i cid (rows.get ⟨i, hi⟩) = (s_f, .error e) →
        append_data lib s name rows = (s_f, .error e) ∧
          s_f.channels = s_i.channels) ∧
      (∀ (krs : List (GKey × ρ)) (i : Nat) (hi : i < krs.length)
          (s_i s_f : RemoteState) (e : GErr),
          upsert_rows lib s0 cid (krs.take i) = (s_i, .ok ()) →
          update_or_insert_row lib s_i cid (krs.get ⟨i, hi⟩) = (s_f, .error e) →
          insert_data lib s name krs = (s_f, .error e) ∧
            s_f.channels = s_i.channels) ∧
      (∀ (keys : List GKey) (i : Nat) (hi : i < keys.length)
          (s_i s_f : RemoteState) (e : GErr),
          delete_keys s0 cid (keys.take i) = (s_i, .ok ()) →
          delete_row s_i cid (keys.get ⟨i, hi⟩) = (s_f, .error e) →
          delete_data s name keys = (s_f, .error e) ∧
            s_f.channels = s_i.channels) := by
  refine ⟨?_, ?_, ?_⟩
  · intro rows i hi s_i s_f e hpre hfail
    refine ⟨?_, append_row_error_channels hfail⟩
    rw [append_data]
    simp only [hch]
    exact rowLoop_prefix_error _ s0 s_i s_f rows i e hi hpre hfail
  · intro krs i hi s_i s_f e hpre hfail
    refine ⟨?_, update_or_insert_row_error_channels hfail⟩
    rw [insert_data]
    simp only [hch]
    exact rowLoop_prefix_error _ s0 s_i s_f krs i e hi hpre hfail
  · intro keys i hi s_i s_f e hpre hfail
    refine ⟨?_, delete_row_error_channels hfail⟩
    rw [delete_data]
    simp only [hch]
    exact rowLoop_prefix_error _ s0 s_i s_f keys i e hi hpre hfail

/-- Witness for C8, one scenario per operation: a two-row `append_data`
whose second send hits a transport failure, a two-pair `insert_data` whose
second key is non-`Str`, and a two-key `delete_data` whose second message
does not exist.  Each call returns the position-1 error while the remote
effects of position 0 (the posted or deleted message) remain applied. -/
theorem c8_multi_row_non_atomicity_witness :
    (append_data natLib ⟨[⟨1, "t".data, []⟩], 2, some 2⟩ "t".data
          ([10, 20] : List Nat) =
        (⟨[⟨1, "t".data, [⟨2, to_discord_json natLib 10, false, .regular⟩]⟩],
            3, none⟩,
          .error (.storage failSendMessageMsg)) ∧
      (⟨[⟨1, "t".data, [⟨2, to_discord_json natLib 10, false, .regular⟩]⟩],
          3, (none : Option Nat)⟩ : RemoteState).channels =
        (⟨[⟨1, "t".data, [⟨2, to_discord_json natLib 10, false, .regular⟩]⟩],
          3, some 0⟩ : RemoteState).channels) ∧
    (insert_data natLib ⟨[⟨1, "t".data, []⟩], 2, none⟩ "t".data
          ([(.str "5".data, 10), (.otherKey, 20)] : List (GKey × Nat)) =
        (⟨[⟨1, "t".data, [⟨2, to_discord_json natLib 10, false, .regular⟩]⟩],
            3, none⟩,
          .error (.storage invalidKeyMsg)) ∧
      (⟨[⟨1, "t".data, [⟨2, to_discord_json natLib 10, false, .regular⟩]⟩],
          3, (none : Option Nat)⟩ : RemoteState).channels =
        (⟨[⟨1, "t".data, [⟨2, to_discord_json natLib 10, false, .regular⟩]⟩],
          3, none⟩ : RemoteState).channels) ∧
    (delete_data ⟨[⟨1, "t".data, [⟨2, to_discord_json natLib 1, false, .regular⟩]⟩],
          3, none⟩ "t".data [.str "2".data, .str "99".data] =
        (⟨[⟨1, "t".data, []⟩], 3, none⟩,
          .error (.storage failDeleteMessageMsg)) ∧
      (⟨[⟨1, "t".data, []⟩], 3, (none : Option Nat)⟩ : RemoteState).channels =
        (⟨[⟨1, "t".data, []⟩], 3, (none : Option Nat)⟩ : RemoteState).channels) := by
  refine ⟨?_, ?_, ?_⟩
  · exact (c8_multi_row_non_atomicity natLib ⟨[⟨1, "t".data, []⟩], 2, some 2⟩
      ⟨[⟨1, "t".data, []⟩], 2, some 1⟩ "t".data 1 rfl).1
      [10, 20] 1 (by decide)
      ⟨[⟨1, "t".data, [⟨2, to_discord_json natLib 10, false, .regular⟩]⟩], 3, some 0⟩
      ⟨[⟨1, "t".data, [⟨2, to_discord_json natLib 10, false, .regular⟩]⟩], 3, none⟩
      (.storage failSendMessageMsg) rfl rfl
  · exact (c8_multi_row_non_atomicity natLib ⟨[⟨1, "t".data, []⟩], 2, none⟩
      ⟨[⟨1, "t".data, []⟩], 2, none⟩ "t".data 1 rfl).2.1
      [(.str "5".data, 10), (.otherKey, 20)] 1 (by decide)
      ⟨[⟨1, "t".data, [⟨2, to_discord_json natLib 10, false, .regular⟩]⟩], 3, none⟩
      ⟨[⟨1, "t".data, [⟨2, to_discord_json natLib 10, false, .regular⟩]⟩], 3, none⟩
      (.storage invalidKeyMsg) rfl rfl
  · exact (c8_multi_row_non_atomicity natLib
      ⟨[⟨1, "t".data, [⟨2, to_discord_json natLib 1, false, .regular⟩]⟩], 3, none⟩
      ⟨[⟨1, "t".data, [⟨2, to_discord_json natLib 1, false, .regular⟩]⟩], 3, none⟩
      "t".data 1 rfl).2.2
      [.str "2".data, .str "99".data] 1 (by decide)
      ⟨[⟨1, "t".data, []⟩], 3, none⟩
      ⟨[⟨1, "t".data, []⟩], 3, none⟩
      (.storage failDeleteMessageMsg) rfl rfl

/-! ## C3 and C4: insert_schema and fetch_schema -/

theorem chanUpd_name (cid : Nat) (f : List Message → List Message) (c : Chan) :
    (chanUpd cid f c).name = c.name := by
  rw [chanUpd]
  split <;> rfl

theorem chanUpd_id (cid : Nat) (f : List Message → List Message) (c : Chan) :
    (chanUpd cid f c).id = c.id := by
  rw [chanUpd]
  split <;> rfl

theorem find?_map_invar {α : Type} (l : List α) (f : α → α) (p : α → Bool)
    (h : ∀ a, p (f a) = p a) :
    (l.map f).find? p = (l.find? p).map f := by
  rw [List.find?_map]
  have hp : p ∘ f = p := funext h
  rw [hp]

/-- Searching channels by name is unaffected by a `chanUpd` map. -/
theorem find?_name_map_chanUpd (l : List Chan) (cid : Nat)
    (f : List Message → List Message) (n : List Char) :
    ((l.map (chanUpd cid f)).find? fun ch => ch.name = n) =
      (l.find? fun ch => ch.name = n).map (chanUpd cid f) :=
  find?_map_invar l _ _ (fun a => by rw [chanUpd_name])

/-- Searching channels by id is unaffected by a `chanUpd` map. -/
theorem find?_id_map_chanUpd (l : List Chan) (cid : Nat)
    (f : List Message → List Message) (x : Nat) :
    ((l.map (chanUpd cid f)).find? fun ch => ch.id = x) =
      (l.find? fun ch => ch.id = x).map (chanUpd cid f) :=
  find?_map_invar l _ _ (fun a => by rw [chanUpd_id])

/-- Decoding the codeblock the adapter pins gives the schema back, given
the external parser/printer agreement at that schema. -/
theorem ds_from_str_to_discord_json (slib : JsonLib Schema) (schema : Schema)
    (h : WsAgrees slib schema) :
    DiscordSchema.from_str slib (to_discord_json slib schema) = some schema := by
  rw [DiscordSchema.from_str, to_discord_json, stripFence_wrap]
  exact h

theorem chanUpd_eq (cid : Nat) (f : List Message → List Message) (c : Chan)
    (h : c.id = cid) : chanUpd cid f c = { c with messages := f c.messages } := by
  rw [chanUpd, if_pos h]

/-- A fresh `insert_schema` against a resolvable channel with no pins
succeeds: the encoded schema is posted (fresh id `s.nextId`), that message
is pinned, and the platform appends its `PinsAdd` notification. -/
theorem insert_schema_no_pins (slib : JsonLib Schema) (s : RemoteState)
    (schema : Schema) (c : Chan)
    (hf : s.failAt = none)
    (hnpk : hasPrimary schema = false)
    (hch : (s.channels.find? fun ch => ch.name = lower schema.table_name) = some c)
    (hid : s.findById c.id = some c)
    (hpins : c.messages.filter Message.pinned = [])
    (hfresh : ∀ m ∈ c.messages, m.id ≠ s.nextId) :
    insert_schema slib s schema =
      ({ ({ s.mapChan c.id (fun ms =>
              ms ++ [⟨s.nextId, to_discord_json slib schema, false, .regular⟩])
            with nextId := s.nextId + 1 } : RemoteState).mapChan c.id
          (fun ms =>
            (ms.map fun m => if m.id = s.nextId then { m with pinned := true } else m)
              ++ [⟨s.nextId + 1, [], false, .pinsAdd⟩])
        with nextId := s.nextId + 1 + 1 }, .ok ()) := by
  have hnpk' : ¬ hasPrimary schema = true := by rw [hnpk]; simp
  have hid' : (s.channels.find? fun ch => ch.id = c.id) = some c := hid
  have hmsgs : ((c.messages ++
      [(⟨s.nextId, to_discord_json slib schema, false, .regular⟩ : Message)]).find?
        fun m => m.id = s.nextId) =
      some ⟨s.nextId, to_discord_json slib schema, false, .regular⟩ := by
    rw [List.find?_append]
    have hnone : (c.messages.find? fun m => m.id = s.nextId) = none :=
      List.find?_eq_none.mpr fun m hm => by simp [hfresh m hm]
    rw [hnone]
    simp [List.find?]
  rw [insert_schema, if_neg hnpk']
  simp only [get_channel_id_none s _ hf, hch, Option.map_some']
  rw [get_pins, tickOnce_none s hf]
  simp only [hid, hpins, List.reverse_nil]
  rw [if_neg (fun hx => hx rfl)]
  rw [send_message, tickOnce_none s hf]
  simp only [hid]
  rw [set_pin]
  simp only [RemoteState.tickOnce, RemoteState.mapChan, RemoteState.findById, hf]
  rw [find?_id_map_chanUpd, hid', Option.map_some', chanUpd_eq _ _ _ rfl]
  simp only [hmsgs]

/-- `insert_schema` against a channel that already has a pin fails with the
constraint violation, leaving the remote state untouched. -/
theorem insert_schema_pinned (slib : JsonLib Schema) (t : RemoteState)
    (schema : Schema) (d : Chan)
    (hf : t.failAt = none)
    (hnpk : hasPrimary schema = false)
    (hch : (t.channels.find? fun ch => ch.name = lower schema.table_name) = some d)
    (hid : t.findById d.id = some d)
    (hpins : d.messages.filter Message.pinned ≠ []) :
    insert_schema slib t schema =
      (t, .error (.storage (alreadyPinnedMsg (lower schema.table_name)))) := by
  have hnpk' : ¬ hasPrimary schema = true := by rw [hnpk]; simp
  rw [insert_schema, if_neg hnpk']
  simp only [get_channel_id_none t _ hf, hch, Option.map_some']
  rw [get_pins, tickOnce_none t hf]
  simp only [hid]
  rw [if_pos (by simpa using hpins)]

/-- `fetch_schema` of a channel whose first pin decodes as a schema returns
that schema. -/
theorem fetch_schema_pin (slib : JsonLib Schema) (t : RemoteState)
    (name : List Char) (d : Chan) (m1 : Message) (rest : List Message)
    (schema : Schema)
    (hf : t.failAt = none)
    (hch : (t.channels.find? fun ch => ch.name = lower name) = some d)
    (hid : t.findById d.id = some d)
    (hpins : (d.messages.filter Message.pinned).reverse = m1 :: rest)
    (hdec : DiscordSchema.from_str slib m1.content = some schema) :
    fetch_schema slib t name = (t, .ok (some schema)) := by
  rw [fetch_schema, get_channels_none t hf]
  simp only [hch]
  rw [get_schema, get_pins, tickOnce_none t hf]
  simp only [hid, hpins, hdec]

/-- C4.  Write-once schema: from a state whose channel for the table
resolves and carries no pinned message, `insert_schema` succeeds; a second
`insert_schema` into the same (now pinned) channel fails with the
"channel is already pinned" constraint violation and changes nothing, and
the first schema is still retrievable unchanged by `fetch_schema`. -/
theorem c4_write_once_schema (slib : JsonLib Schema) (s : RemoteState)
    (schema : Schema) (c : Chan)
    (hf : s.failAt = none)
    (hnpk : hasPrimary schema = false)
    (hch : (s.channels.find? fun ch => ch.name = lower schema.table_name) = some c)
    (hid : s.findById c.id = some c)
    (hpins : c.messages.filter Message.pinned = [])
    (hfresh : ∀ m ∈ c.messages, m.id ≠ s.nextId)
    (hcodec : WsAgrees slib schema) :
    ∃ s', insert_schema slib s schema = (s', .ok ()) ∧
      insert_schema slib s' schema =
        (s', .error (.storage (alreadyPinnedMsg (lower schema.table_name)))) ∧
      fetch_schema slib s' schema.table_name = (s', .ok (some schema)) := by
  have hid' : (s.channels.find? fun ch => ch.id = c.id) = some c := hid
  have hmapid : (c.messages.map fun m =>
      if m.id = s.nextId then { m with pinned := true } else m) = c.messages := by
    have h1 : (c.messages.map fun m =>
        if m.id = s.nextId then { m with pinned := true } else m) =
        c.messages.map id :=
      List.map_congr_left (fun m hm => by rw [if_neg (hfresh m hm)]; rfl)
    rw [h1, List.map_id]
  have hupd : chanUpd c.id
      (fun ms =>
        (ms.map fun m => if m.id = s.nextId then { m with pinned := true } else m)
          ++ [⟨s.nextId + 1, [], false, .pinsAdd⟩])
      (chanUpd c.id
        (fun ms => ms ++ [⟨s.nextId, to_discord_json slib schema, false, .regular⟩]) c) =
      { c with messages :=
          (c.messages ++ [⟨s.nextId, to_discord_json slib schema, true, .regular⟩])
            ++ [⟨s.nextId + 1, [], false, .pinsAdd⟩] } := by
    rw [chanUpd_eq c.id _ c rfl]
    rw [chanUpd_eq c.id _
      ({ c with messages :=
        c.messages ++ [⟨s.nextId, to_discord_json slib schema, false, .regular⟩] }) rfl]
    simp [List.map_append, hmapid]
  have hfilter : (({ c with messages :=
      (c.messages ++ [⟨s.nextId, to_discord_json slib schema, true, .regular⟩])
        ++ [⟨s.nextId + 1, [], false, .pinsAdd⟩] } : Chan).messages.filter
        Message.pinned) =
      [⟨s.nextId, to_discord_json slib schema, true, .regular⟩] := by
    simp only [List.filter_append, hpins]
    rfl
  refine ⟨_, insert_schema_no_pins slib s schema c hf hnpk hch hid hpins hfresh, ?_, ?_⟩
  · refine insert_schema_pinned slib _ schema
      ({ c with messages :=
        (c.messages ++ [⟨s.nextId, to_discord_json slib schema, true, .regular⟩])
          ++ [⟨s.nextId + 1, [], false, .pinsAdd⟩] })
      ?_ hnpk ?_ ?_ ?_
    · exact hf
    · simp only [RemoteState.mapChan]
      rw [find?_name_map_chanUpd, find?_name_map_chanUpd, hch, Option.map_some',
        Option.map_some', hupd]
    · simp only [RemoteState.findById, RemoteState.mapChan]
      rw [find?_id_map_chanUpd, find?_id_map_chanUpd, hid', Option.map_some',
        Option.map_some', hupd]
    · rw [hfilter]
      simp
  · refine fetch_schema_pin slib _ schema.table_name
      ({ c with messages :=
        (c.messages ++ [⟨s.nextId, to_discord_json slib schema, true, .regular⟩])
          ++ [⟨s.nextId + 1, [], false, .pinsAdd⟩] })
      ⟨s.nextId, to_discord_json slib schema, true, .regular⟩ [] schema ?_ ?_ ?_ ?_ ?_
    · exact hf
    · simp only [RemoteState.mapChan]
      rw [find?_name_map_chanUpd, find?_name_map_chanUpd, hch, Option.map_some',
        Option.map_some', hupd]
    · simp only [RemoteState.findById, RemoteState.mapChan]
      rw [find?_id_map_chanUpd, find?_id_map_chanUpd, hid', Option.map_some',
        Option.map_some', hupd]
    · rw [hfilter]
      simp
    · exact ds_from_str_to_discord_json slib schema hcodec

/-- Witness for C4: a fresh channel "user" with no pins; the schema is
inserted under table name "User", reinsertion fails with the constraint
violation, and the schema stays fetchable. -/
theorem c4_write_once_schema_witness :
    ∃ s', insert_schema (schemaStubLib ⟨"User".data, []⟩)
          ⟨[⟨1, "user".data, []⟩], 2, none⟩ ⟨"User".data, []⟩ = (s', .ok ()) ∧
      insert_schema (schemaStubLib ⟨"User".data, []⟩) s' ⟨"User".data, []⟩ =
        (s', .error (.storage (alreadyPinnedMsg (lower "User".data)))) ∧
      fetch_schema (schemaStubLib ⟨"User".data, []⟩) s' "User".data =
        (s', .ok (some ⟨"User".data, []⟩)) :=
  c4_write_once_schema (schemaStubLib ⟨"User".data, []⟩)
    ⟨[⟨1, "user".data, []⟩], 2, none⟩ ⟨"User".data, []⟩ ⟨1, "user".data, []⟩
    rfl (by decide) (by decide) rfl rfl (by simp) rfl

/-- A fresh `insert_schema` for a table with no existing channel creates
the channel — named with the platform-lowercased table name — posts the
encoded schema into it and pins it. -/
theorem insert_schema_create (slib : JsonLib Schema) (s : RemoteState)
    (schema : Schema)
    (hf : s.failAt = none)
    (hnpk : hasPrimary schema = false)
    (habs : (s.channels.find? fun ch => ch.name = lower schema.table_name) = none)
    (hfresh : ∀ ch ∈ s.channels, ch.id ≠ s.nextId) :
    insert_schema slib s schema =
      ({ ({ ({ s with
              channels := s.channels ++ [⟨s.nextId, lower schema.table_name, []⟩],
              nextId := s.nextId + 1 } : RemoteState).mapChan s.nextId
            (fun ms =>
              ms ++ [⟨s.nextId + 1, to_discord_json slib schema, false, .regular⟩])
          with nextId := s.nextId + 1 + 1 } : RemoteState).mapChan s.nextId
          (fun ms =>
            (ms.map fun m =>
              if m.id = s.nextId + 1 then { m with pinned := true } else m)
              ++ [⟨s.nextId + 1 + 1, [], false, .pinsAdd⟩])
        with nextId := s.nextId + 1 + 1 + 1 }, .ok ()) := by
  have hnpk' : ¬ hasPrimary schema = true := by rw [hnpk]; simp
  have hfind : ((s.channels ++ [(⟨s.nextId, lower schema.table_name, []⟩ : Chan)]).find?
      fun ch => ch.id = s.nextId) = some ⟨s.nextId, lower schema.table_name, []⟩ := by
    rw [List.find?_append]
    have hnone : (s.channels.find? fun ch => ch.id = s.nextId) = none :=
      List.find?_eq_none.mpr fun ch hch => by simp [hfresh ch hch]
    rw [hnone]
    simp [List.find?]
  rw [insert_schema, if_neg hnpk']
  simp only [get_channel_id_none s _ hf, habs, Option.map_none']
  rw [create_channel, tickOnce_none s hf]
  simp only []
  rw [get_pins]
  simp only [RemoteState.tickOnce, RemoteState.findById, hf]
  rw [hfind]
  simp only [List.filter_nil, List.reverse_nil]
  rw [if_neg (fun hx => hx rfl)]
  rw [send_message]
  simp only [RemoteState.tickOnce, RemoteState.findById, hf]
  rw [hfind]
  simp only []
  rw [set_pin]
  simp only [RemoteState.tickOnce, RemoteState.mapChan, RemoteState.findById, hf]
  rw [find?_id_map_chanUpd, hfind, Option.map_some',
    chanUpd_eq s.nextId _ ⟨s.nextId, lower schema.table_name, []⟩ rfl]
  simp [List.find?]

/-- C3.  Case-insensitivity of table names: inserting a schema under a
table name with no existing channel succeeds (the channel is created under
the lowercased name), and fetching the schema under **any** case variant of
that name returns the same schema; any two table names differing only in
case resolve to the same channel lookup. -/
theorem c3_case_insensitivity (slib : JsonLib Schema) (s : RemoteState)
    (schema : Schema)
    (hf : s.failAt = none)
    (hnpk : hasPrimary schema = false)
    (habs : (s.channels.find? fun ch => ch.name = lower schema.table_name) = none)
    (hfresh : ∀ ch ∈ s.channels, ch.id ≠ s.nextId)
    (hcodec : WsAgrees slib schema) :
    ∃ s', insert_schema slib s schema = (s', .ok ()) ∧
      (∀ m, lower m = lower schema.table_name →
        fetch_schema slib s' m = (s', .ok (some schema))) ∧
      (∀ m₁ m₂, lower m₁ = lower m₂ →
        get_channel_id s' (lower m₁) = get_channel_id s' (lower m₂)) := by
  have hfind : ((s.channels ++ [(⟨s.nextId, lower schema.table_name, []⟩ : Chan)]).find?
      fun ch => ch.id = s.nextId) = some ⟨s.nextId, lower schema.table_name, []⟩ := by
    rw [List.find?_append]
    have hnone : (s.channels.find? fun ch => ch.id = s.nextId) = none :=
      List.find?_eq_none.mpr fun ch hch => by simp [hfresh ch hch]
    rw [hnone]
    simp [List.find?]
  have hupd : chanUpd s.nextId
      (fun ms =>
        (ms.map fun m => if m.id = s.nextId + 1 then { m with pinned := true } else m)
          ++ [⟨s.nextId + 1 + 1, [], false, .pinsAdd⟩])
      (chanUpd s.nextId
        (fun ms => ms ++ [⟨s.nextId + 1, to_discord_json slib schema, false, .regular⟩])
        ⟨s.nextId, lower schema.table_name, []⟩) =
      ⟨s.nextId, lower schema.table_name,
        [⟨s.nextId + 1, to_discord_json slib schema, true, .regular⟩,
         ⟨s.nextId + 1 + 1, [], false, .pinsAdd⟩]⟩ := by
    simp [chanUpd]
  refine ⟨_, insert_schema_create slib s schema hf hnpk habs hfresh, ?_, ?_⟩
  · intro m hm
    refine fetch_schema_pin slib _ m
      ⟨s.nextId, lower schema.table_name,
        [⟨s.nextId + 1, to_discord_json slib schema, true, .regular⟩,
         ⟨s.nextId + 1 + 1, [], false, .pinsAdd⟩]⟩
      ⟨s.nextId + 1, to_discord_json slib schema, true, .regular⟩ [] schema
      ?_ ?_ ?_ ?_ ?_
    · exact hf
    · rw [hm]
      simp only [RemoteState.mapChan]
      rw [find?_name_map_chanUpd, find?_name_map_chanUpd, List.find?_append, habs]
      simp [List.find?, hupd]
    · simp only [RemoteState.findById, RemoteState.mapChan]
      rw [find?_id_map_chanUpd, find?_id_map_chanUpd, hfind]
      simp [hupd]
    · simp [List.filter]
    · exact ds_from_str_to_discord_json slib schema hcodec
  · intro m1 m2 h12
    rw [h12]

/-- Witness for C3: on an empty guild, inserting a schema for table "Foo"
makes the schema fetchable under "foo", "FOO" and every other case variant. -/
theorem c3_case_insensitivity_witness :
    ∃ s', insert_schema (schemaStubLib ⟨"Foo".data, []⟩) ⟨[], 1, none⟩
          ⟨"Foo".data, []⟩ = (s', .ok ()) ∧
      (∀ m, lower m = lower "Foo".data →
        fetch_schema (schemaStubLib ⟨"Foo".data, []⟩) s' m =
          (s', .ok (some ⟨"Foo".data, []⟩))) ∧
      (∀ m₁ m₂, lower m₁ = lower m₂ →
        get_channel_id s' (lower m₁) = get_channel_id s' (lower m₂)) :=
  c3_case_insensitivity (schemaStubLib ⟨"Foo".data, []⟩) ⟨[], 1, none⟩
    ⟨"Foo".data, []⟩ rfl (by decide) rfl (by simp) rfl

end GlueDiscord
